import Mathlib

/-!
Verification of the Bitcoin post-reward economic model
(`BitcoinEconomicsModel` and its helpers in the repository's economic-model
module).

JavaScript `number` arithmetic is modelled by the real numbers `ℝ`;
`Math.pow` becomes `Real.rpow` (written `x ^ y`), `Math.min`/`Math.max`
become `min`/`max`, and `Math.abs` becomes `|·|`.  The `Infinity` sentinel
stored in the solver's `bestGap` accumulator and in `breakEvenBTCPrice`
is modelled by `Option ℝ` with `none` standing for `Infinity`.
Optional input fields that the model reads through a runtime default
(`batchingFactor = 1` destructuring default, `rentRateUsdPerTHHour || 0.06`)
are modelled as `Option ℝ` together with the corresponding defaulting
function.  The runtime semantics of the `securityBudgetMode` switch over an
arbitrary string, including the non-null assertions `alpha!` etc. (which are
erased at runtime, so a missing field flows into arithmetic as `undefined`
and produces `NaN`), is modelled separately by `securityBudgetTargetUsdJS`
over `RawBudgetInputs`, with `none : Option ℝ` standing for
`undefined`/`NaN`.
-/

/-- The three values of the `securityBudgetMode` string-union type of the
`EconomicInputs` interface. -/
inductive SecurityBudgetMode where
  | percent_of_2025
  | percent_of_settlement_value
  | absolute_usd
deriving DecidableEq

/-- The `EconomicInputs` interface.  The five security-budget policy numbers
are carried as plain reals (the typed model; their runtime optionality is
modelled by `RawBudgetInputs` below), while the three optional fields that
the model reads through an explicit runtime default or never reads at all
(`batchingFactor`, `valuePerTxMultiplier`, `rentRateUsdPerTHHour`) are
carried as `Option ℝ`. -/
structure EconomicInputs where
  btcPrice : ℝ
  blockLimitMB : ℝ
  baselineFeerate : ℝ
  baselineDemandVbDay : ℝ
  elasticity : ℝ
  mevUplift : ℝ
  costPerTHDay : ℝ
  margin : ℝ
  poolShare : ℝ
  avgTxVb : ℝ
  backlogVb : ℝ
  securityBudgetMode : SecurityBudgetMode
  alpha : ℝ
  base2025RevenueUsd : ℝ
  beta : ℝ
  settlementUsdDay : ℝ
  absoluteUsdDay : ℝ
  batchingFactor : Option ℝ
  valuePerTxMultiplier : Option ℝ
  rentRateUsdPerTHHour : Option ℝ

/-- Source constant `BLOCKS_PER_DAY = 144`. -/
def BLOCKS_PER_DAY : ℝ := 144

/-- Source constant `SATOSHIS_PER_BTC = 1e8`. -/
def SATOSHIS_PER_BTC : ℝ := 1e8

/-- Source `usd(btcAmount, btcPrice) = btcAmount * btcPrice`. -/
def usd (btcAmount btcPrice : ℝ) : ℝ := btcAmount * btcPrice

/-- JavaScript `x || d` on an optional number: the default is taken when the
field is absent or equal to `0` (the only falsy numeric value relevant
here). -/
noncomputable def jsOrDefault : Option ℝ → ℝ → ℝ
  | some r, d => if r = 0 then d else r
  | none, d => d

namespace BitcoinEconomicsModel

/-- Source `blockLimitVb(blockLimitMB) = blockLimitMB * 1_000_000`. -/
def blockLimitVb (blockLimitMB : ℝ) : ℝ := blockLimitMB * 1000000

/-- Source `demandVbPerDay(feerate, inputs)`: constant-elasticity demand curve,
with the destructuring default `batchingFactor = 1`. -/
noncomputable def demandVbPerDay (feerate : ℝ) (inputs : EconomicInputs) : ℝ :=
  let batchingFactor := inputs.batchingFactor.getD 1
  (inputs.baselineDemandVbDay / batchingFactor) *
    (feerate / inputs.baselineFeerate) ^ inputs.elasticity

/-- Source `confirmedVbPerDay(feerate, inputs) = min(demand, supply)`. -/
noncomputable def confirmedVbPerDay (feerate : ℝ) (inputs : EconomicInputs) : ℝ :=
  min (demandVbPerDay feerate inputs)
    (blockLimitVb inputs.blockLimitMB * BLOCKS_PER_DAY)

/-- Source `feesUsdPerDay(feerate, inputs) = usd((feerate * confirmed) / 1e8, btcPrice)`. -/
noncomputable def feesUsdPerDay (feerate : ℝ) (inputs : EconomicInputs) : ℝ :=
  usd ((feerate * confirmedVbPerDay feerate inputs) / SATOSHIS_PER_BTC) inputs.btcPrice

/-- Source `feesBtcPerDay(feerate, inputs)`. -/
noncomputable def feesBtcPerDay (feerate : ℝ) (inputs : EconomicInputs) : ℝ :=
  (feerate * confirmedVbPerDay feerate inputs) / SATOSHIS_PER_BTC

/-- Source `securityBudgetTargetUsd(inputs)`: the three-way switch over the typed
`securityBudgetMode`.  (The `default: throw` branch of the runtime switch is
unreachable for a well-typed mode; it is modelled by
`securityBudgetTargetUsdJS` below.) -/
def securityBudgetTargetUsd (inputs : EconomicInputs) : ℝ :=
  match inputs.securityBudgetMode with
  | .absolute_usd => inputs.absoluteUsdDay
  | .percent_of_2025 => inputs.alpha * inputs.base2025RevenueUsd
  | .percent_of_settlement_value => inputs.beta * inputs.settlementUsdDay

/-- The mutable locals of the binary-search loop in `solveFeerateForTarget`:
`lo`, `hi`, `bestFeerate`, `bestGap` (with `none` standing for the initial
`Infinity`), `bestFeesUsd`, `bestDemand`. -/
structure SolverState where
  lo : ℝ
  hi : ℝ
  bestFeerate : ℝ
  bestGap : Option ℝ
  bestFeesUsd : ℝ
  bestDemand : ℝ

/-- The comparison `gap < bestGap` of the loop, where `bestGap` starts as
`Infinity` (`none`): any real gap is below `Infinity`. -/
noncomputable def gapLtBest (gap : ℝ) : Option ℝ → Bool
  | none => true
  | some b => decide (gap < b)

/-- The candidate fee revenue the loop evaluates at a midpoint:
`feesUsd = (mid * confirmedVbDay / SATOSHIS_PER_BTC) * inputs.btcPrice`,
abstracted over the confirmed-volume curve. -/
noncomputable def feesAt (confirmedAt : ℝ → ℝ) (btcPrice f : ℝ) : ℝ :=
  f * confirmedAt f / SATOSHIS_PER_BTC * btcPrice

/-- One iteration of the binary-search loop body of `solveFeerateForTarget`:
evaluate the midpoint, track the best candidate seen, then move the
bracket (`feesUsd >= targetFeesUsd` moves `hi` down, else `lo` up). -/
noncomputable def solverStep (confirmedAt : ℝ → ℝ) (btcPrice target : ℝ)
    (s : SolverState) : SolverState :=
  let mid := (s.lo + s.hi) / 2
  let confirmedVbDay := confirmedAt mid
  let feesUsd := feesAt confirmedAt btcPrice mid
  let gap := |feesUsd - target| / target
  let s1 := if gapLtBest gap s.bestGap then
      { s with bestFeerate := mid, bestGap := some gap,
               bestFeesUsd := feesUsd, bestDemand := confirmedVbDay / 1e6 }
    else s
  if target ≤ feesUsd then { s1 with hi := mid } else { s1 with lo := mid }

/-- The `for (let i = 0; i < 100; i++)` loop: at most `n` further
iterations, with the early `break` once the updated bracket width
`hi - lo` falls below `0.001`. -/
noncomputable def solverGo (confirmedAt : ℝ → ℝ) (btcPrice target : ℝ) :
    Nat → SolverState → SolverState
  | 0, s => s
  | n + 1, s =>
    let s1 := solverStep confirmedAt btcPrice target s
    if s1.hi - s1.lo < 0.001 then s1 else solverGo confirmedAt btcPrice target n s1

/-- The record returned by `solveFeerateForTarget`. -/
structure SolveResult where
  feerate : ℝ
  targetMet : Bool
  gap : ℝ
  actualRevenue : ℝ
  confirmedDemandMBDay : ℝ
  targetFeesUsd : ℝ

/-- Source `solveFeerateForTarget(inputs)`: target `S* / (1 + γ)`, binary search on
`[1, 100000]` with best-candidate tracking, tolerance `0.0025`. -/
noncomputable def solveFeerateForTarget (inputs : EconomicInputs) : SolveResult :=
  let securityBudgetTarget := securityBudgetTargetUsd inputs
  let gamma := inputs.mevUplift
  let tolerance : ℝ := 0.0025
  let targetFeesUsd := securityBudgetTarget / (1 + gamma)
  let init : SolverState :=
    { lo := 1, hi := 100000, bestFeerate := 100000, bestGap := none,
      bestFeesUsd := 0, bestDemand := 0 }
  let final := solverGo (fun f => confirmedVbPerDay f inputs) inputs.btcPrice
    targetFeesUsd 100 init
  let finalGap := (final.bestFeesUsd - targetFeesUsd) / targetFeesUsd
  let actualRevenue := final.bestFeesUsd * (1 + gamma)
  { feerate := final.bestFeerate,
    targetMet := decide (|finalGap| ≤ tolerance),
    gap := finalGap,
    actualRevenue := actualRevenue,
    confirmedDemandMBDay := final.bestDemand,
    targetFeesUsd := targetFeesUsd }

/-- Source `equilibriumHashrateTH(feerate, rewardUsdDay, inputs)`. -/
noncomputable def equilibriumHashrateTH (feerate rewardUsdDay : ℝ)
    (inputs : EconomicInputs) : ℝ :=
  let feeRevenue := feesUsdPerDay feerate inputs * (1 + inputs.mevUplift)
  let totalRevenue := feeRevenue + rewardUsdDay
  totalRevenue / (inputs.costPerTHDay * (1 + inputs.margin))

/-- Source `attackCostUsd(hours, hashrateTH, rentRateUsdPerTHHour)`. -/
def attackCostUsd (hours hashrateTH rentRateUsdPerTHHour : ℝ) : ℝ :=
  let attackerTH := 0.51 * hashrateTH
  attackerTH * rentRateUsdPerTHHour * hours

/-- Source `calculateConfirmationTime(feerate, inputs)`. -/
noncomputable def calculateConfirmationTime (feerate : ℝ)
    (inputs : EconomicInputs) : ℝ :=
  let demand := demandVbPerDay feerate inputs
  let supply := blockLimitVb inputs.blockLimitMB * BLOCKS_PER_DAY
  if demand ≤ supply then 10
  else
    let backlog := inputs.backlogVb + (demand - supply)
    max 10 (backlog / supply * 10 * 60)

/-- The `solverInfo` sub-record that `computeFullModel` copies out of the
solver result. -/
structure SolverInfo where
  targetMet : Bool
  gap : ℝ
  actualRevenue : ℝ
  targetFeesUsd : ℝ

/-- The `EconomicOutputs & { solverInfo; currentHashrateTH }` record returned
by `computeFullModel`.  `breakEvenBTCPrice` uses `none` for the `Infinity`
sentinel. -/
structure FullModelOutputs where
  optimalFeerate : ℝ
  dailyFeeRevenueBTC : ℝ
  dailyFeeRevenueUSD : ℝ
  feesPerBlockBTC : ℝ
  avgFeePerTxUSD : ℝ
  demandVbPerDay : ℝ
  confirmedVbPerDay : ℝ
  backlogVb : ℝ
  avgConfirmationTimeMin : ℝ
  equilibriumHashrateTH : ℝ
  networkRevenueUSD : ℝ
  securityBudgetTargetUSD : ℝ
  attackCost6hUSD : ℝ
  attackCostAsPercentOfSettlement : ℝ
  poolDailyRevenueUSD : ℝ
  poolDailyExpensesUSD : ℝ
  poolDailyProfitUSD : ℝ
  poolProfitMargin : ℝ
  breakEvenBTCPrice : Option ℝ
  hashrateSustainabilityRatio : ℝ
  solverInfo : SolverInfo
  currentHashrateTH : ℝ

/-- Source `computeFullModel(inputs, includeBlockRewards)`.  The
`assertNearlyEqual` QA calls in the source only emit `console.warn` and do
not affect any computed value, so they have no counterpart here. -/
noncomputable def computeFullModel (inputs : EconomicInputs)
    (includeBlockRewards : Bool) : FullModelOutputs :=
  let currentBlockReward : ℝ := if includeBlockRewards then 3.125 else 0
  let rewardUsdDay := usd (currentBlockReward * BLOCKS_PER_DAY) inputs.btcPrice
  let solverResult := solveFeerateForTarget inputs
  let optimalFeerate := solverResult.feerate
  let confirmedVb := confirmedVbPerDay optimalFeerate inputs
  let dailyFeeRevenueUSD := optimalFeerate * confirmedVb / SATOSHIS_PER_BTC * inputs.btcPrice
  let dailyFeeRevenueBTC := dailyFeeRevenueUSD / inputs.btcPrice
  let feesPerBlockUSD := dailyFeeRevenueUSD / BLOCKS_PER_DAY
  let feesPerBlockBTC := feesPerBlockUSD / inputs.btcPrice
  let avgFeePerTxUSD := optimalFeerate * inputs.avgTxVb / SATOSHIS_PER_BTC * inputs.btcPrice
  let demandVb := demandVbPerDay optimalFeerate inputs
  let backlogVb := max 0 (inputs.backlogVb + demandVb - confirmedVb)
  let avgConfirmationTimeMin := calculateConfirmationTime optimalFeerate inputs
  let feeRevenueWithMEV := dailyFeeRevenueUSD * (1 + inputs.mevUplift)
  let networkRevenueUSD := feeRevenueWithMEV + rewardUsdDay
  let securityBudgetTargetUSD := securityBudgetTargetUsd inputs
  let equilibriumHashrateTH := networkRevenueUSD / (inputs.costPerTHDay * (1 + inputs.margin))
  let attackCost6hUSD := attackCostUsd 6 equilibriumHashrateTH
    (jsOrDefault inputs.rentRateUsdPerTHHour 0.06)
  let attackCostAsPercentOfSettlement :=
    if inputs.settlementUsdDay ≠ 0 then attackCost6hUSD / inputs.settlementUsdDay * 100 else 0
  let poolDailyRevenueUSD := networkRevenueUSD * inputs.poolShare
  let poolDailyExpensesUSD := equilibriumHashrateTH * inputs.poolShare * inputs.costPerTHDay
  let poolDailyProfitUSD := poolDailyRevenueUSD - poolDailyExpensesUSD
  let poolProfitMargin :=
    if 0 < poolDailyRevenueUSD then poolDailyProfitUSD / poolDailyRevenueUSD else -1
  let breakEvenBTCPrice : Option ℝ :=
    if 0 < poolDailyExpensesUSD ∧ 0 < dailyFeeRevenueBTC then
      some (poolDailyExpensesUSD / (dailyFeeRevenueBTC * inputs.poolShare))
    else none
  let currentHashrateTH : ℝ := 400 * 1e12
  let hashrateSustainabilityRatio := equilibriumHashrateTH / currentHashrateTH
  { optimalFeerate := optimalFeerate
    dailyFeeRevenueBTC := dailyFeeRevenueBTC
    dailyFeeRevenueUSD := dailyFeeRevenueUSD
    feesPerBlockBTC := feesPerBlockBTC
    avgFeePerTxUSD := avgFeePerTxUSD
    demandVbPerDay := demandVb
    confirmedVbPerDay := confirmedVb
    backlogVb := backlogVb
    avgConfirmationTimeMin := avgConfirmationTimeMin
    equilibriumHashrateTH := equilibriumHashrateTH
    networkRevenueUSD := networkRevenueUSD
    securityBudgetTargetUSD := securityBudgetTargetUSD
    attackCost6hUSD := attackCost6hUSD
    attackCostAsPercentOfSettlement := attackCostAsPercentOfSettlement
    poolDailyRevenueUSD := poolDailyRevenueUSD
    poolDailyExpensesUSD := poolDailyExpensesUSD
    poolDailyProfitUSD := poolDailyProfitUSD
    poolProfitMargin := poolProfitMargin
    breakEvenBTCPrice := breakEvenBTCPrice
    hashrateSustainabilityRatio := hashrateSustainabilityRatio
    solverInfo :=
      { targetMet := solverResult.targetMet
        gap := solverResult.gap
        actualRevenue := solverResult.actualRevenue
        targetFeesUsd := solverResult.targetFeesUsd }
    currentHashrateTH := currentHashrateTH }

end BitcoinEconomicsModel

/-- The security-budget configuration slice of `EconomicInputs` as it exists
at runtime: the mode is an arbitrary string and each policy number may be
absent (`none` = `undefined`/`null`). -/
structure RawBudgetInputs where
  securityBudgetMode : String
  alpha : Option ℝ
  base2025RevenueUsd : Option ℝ
  beta : Option ℝ
  settlementUsdDay : Option ℝ
  absoluteUsdDay : Option ℝ

/-- JavaScript multiplication of possibly-`undefined` numbers:
`undefined * x` is `NaN` (modelled by `none`). -/
def jsMul : Option ℝ → Option ℝ → Option ℝ
  | some a, some b => some (a * b)
  | _, _ => none

/-- The runtime behaviour of `securityBudgetTargetUsd`: the non-null
assertions `alpha!`, `beta!`, etc. are erased at runtime, so a missing field
flows into the multiplication as `undefined` and yields `NaN` (`none`); only
an unrecognized mode string reaches the `default: throw new Error(...)`
branch. -/
def securityBudgetTargetUsdJS (inputs : RawBudgetInputs) :
    Except String (Option ℝ) :=
  if inputs.securityBudgetMode = "absolute_usd" then
    .ok inputs.absoluteUsdDay
  else if inputs.securityBudgetMode = "percent_of_2025" then
    .ok (jsMul inputs.alpha inputs.base2025RevenueUsd)
  else if inputs.securityBudgetMode = "percent_of_settlement_value" then
    .ok (jsMul inputs.beta inputs.settlementUsdDay)
  else
    .error "Invalid security budget mode"

open BitcoinEconomicsModel

/-- The fee target the solver derives before searching:
`targetFeesUsd = securityBudgetTarget / (1 + gamma)`. -/
noncomputable def targetOf (inputs : EconomicInputs) : ℝ :=
  securityBudgetTargetUsd inputs / (1 + inputs.mevUplift)

/-- A concrete input family with zero elasticity (so demand is the constant
`1e8 vB/day`, below the `5.76e8` supply), unit BTC price, zero MEV uplift and
an `absolute_usd` budget of `T` USD/day; on it `feesUsdPerDay f = f`. -/
noncomputable def linInputs (T : ℝ) : EconomicInputs :=
  { btcPrice := 1, blockLimitMB := 4, baselineFeerate := 12,
    baselineDemandVbDay := 1e8, elasticity := 0, mevUplift := 0,
    costPerTHDay := 1.5, margin := 0.107, poolShare := 0.008,
    avgTxVb := 210, backlogVb := 25000000,
    securityBudgetMode := .absolute_usd, alpha := 0.65,
    base2025RevenueUsd := 45000000, beta := 0.003,
    settlementUsdDay := 8000000000, absoluteUsdDay := T,
    batchingFactor := none, valuePerTxMultiplier := none,
    rentRateUsdPerTHHour := some 0.06 }

/-- A concrete input with elasticity `-2` (steeper than unit-elastic), on
which `feesUsdPerDay` is strictly decreasing where demand is unclipped. -/
noncomputable def steepInputs : EconomicInputs :=
  { btcPrice := 1, blockLimitMB := 1000, baselineFeerate := 1,
    baselineDemandVbDay := 1e8, elasticity := -2, mevUplift := 0,
    costPerTHDay := 1.5, margin := 0.107, poolShare := 0.008,
    avgTxVb := 210, backlogVb := 0,
    securityBudgetMode := .absolute_usd, alpha := 0.65,
    base2025RevenueUsd := 45000000, beta := 0.003,
    settlementUsdDay := 8000000000, absoluteUsdDay := 100,
    batchingFactor := some 1, valuePerTxMultiplier := none,
    rentRateUsdPerTHHour := some 0.06 }

/-- Best-candidate tracking invariant of the solver loop: the recorded best
fee revenue is the loop's fee formula evaluated at the recorded best
feerate. -/
noncomputable def Tracked (confirmedAt : ℝ → ℝ) (btcPrice : ℝ)
    (s : SolverState) : Prop :=
  s.bestFeesUsd = feesAt confirmedAt btcPrice s.bestFeerate

/-- Loop invariant when the target exceeds the fee curve everywhere on the
bracket and the curve is strictly increasing: the branch `lo := mid` is
always taken, `hi` stays at the ceiling, and the best candidate is always
the last midpoint, i.e. the current `lo`. -/
noncomputable def UnreachableInv (confirmedAt : ℝ → ℝ) (btcPrice target : ℝ)
    (s : SolverState) : Prop :=
  s.hi = 100000 ∧ 1 ≤ s.lo ∧ s.lo < 100000 ∧ s.bestFeerate = s.lo ∧
  s.bestFeesUsd = feesAt confirmedAt btcPrice s.lo ∧
  s.bestGap = some (|feesAt confirmedAt btcPrice s.lo - target| / target)

/-- Loop invariant when the target is negative and the fee curve is
nonnegative and non-decreasing: the branch `hi := mid` is always taken,
`lo` stays at the floor, and after the first iteration the best candidate
is pinned at the first midpoint `50000.5` forever (later midpoints have
smaller fee revenue, hence a larger signed gap). -/
noncomputable def NegTargetInv (confirmedAt : ℝ → ℝ) (btcPrice target : ℝ)
    (s : SolverState) : Prop :=
  s.lo = 1 ∧ 1 < s.hi ∧ s.hi ≤ 50000.5 ∧ s.bestFeerate = 50000.5 ∧
  s.bestFeesUsd = feesAt confirmedAt btcPrice 50000.5 ∧
  s.bestGap = some (|feesAt confirmedAt btcPrice 50000.5 - target| / target)

section ConcreteEvaluation

lemma demand_linInputs (T f : ℝ) : demandVbPerDay f (linInputs T) = 1e8 := by
  simp [demandVbPerDay, linInputs]

lemma confirmed_linInputs (T f : ℝ) : confirmedVbPerDay f (linInputs T) = 1e8 := by
  rw [confirmedVbPerDay, demand_linInputs]
  simp [linInputs, blockLimitVb, BLOCKS_PER_DAY]
  norm_num

lemma fees_linInputs (T f : ℝ) : feesUsdPerDay f (linInputs T) = f := by
  rw [feesUsdPerDay, confirmed_linInputs]
  simp [usd, SATOSHIS_PER_BTC, linInputs]
  ring

lemma targetOf_linInputs (T : ℝ) : targetOf (linInputs T) = T := by
  simp [targetOf, securityBudgetTargetUsd, linInputs]

end ConcreteEvaluation

/-- C9: `calculateConfirmationTime` returns 10 minutes when demand is at
most supply (`blockLimitMB * 1,000,000 * 144`), and otherwise
`max(10, ((backlogVb + (demand - supply)) / supply) * 10 * 60)` minutes. -/
theorem calculateConfirmationTime_spec (f : ℝ) (i : EconomicInputs) :
    calculateConfirmationTime f i =
      if demandVbPerDay f i ≤ i.blockLimitMB * 1000000 * 144 then 10
      else
        max 10
          ((i.backlogVb + (demandVbPerDay f i - i.blockLimitMB * 1000000 * 144)) /
            (i.blockLimitMB * 1000000 * 144) * 10 * 60) := by
  rfl

/-- C10: `valuePerTxMultiplier` is carried on `EconomicInputs` but read by no
computation, so two inputs differing only in that field produce identical
`computeFullModel` outputs. -/
theorem computeFullModel_valuePerTxMultiplier_irrelevant
    (i : EconomicInputs) (v : Option ℝ) (b : Bool) :
    computeFullModel { i with valuePerTxMultiplier := v } b = computeFullModel i b := by
  rfl

/-- C8: doubling `poolShare` (all else fixed) exactly doubles
`poolDailyRevenueUSD` and `poolDailyExpensesUSD`, while the solver result,
`networkRevenueUSD` and `equilibriumHashrateTH` are unchanged. -/
theorem computeFullModel_poolShare_doubling (i : EconomicInputs) (b : Bool) :
    (computeFullModel { i with poolShare := 2 * i.poolShare } b).poolDailyRevenueUSD
        = 2 * (computeFullModel i b).poolDailyRevenueUSD ∧
    (computeFullModel { i with poolShare := 2 * i.poolShare } b).poolDailyExpensesUSD
        = 2 * (computeFullModel i b).poolDailyExpensesUSD ∧
    (computeFullModel { i with poolShare := 2 * i.poolShare } b).solverInfo
        = (computeFullModel i b).solverInfo ∧
    (computeFullModel { i with poolShare := 2 * i.poolShare } b).networkRevenueUSD
        = (computeFullModel i b).networkRevenueUSD ∧
    (computeFullModel { i with poolShare := 2 * i.poolShare } b).equilibriumHashrateTH
        = (computeFullModel i b).equilibriumHashrateTH := by
  have hsolve : solveFeerateForTarget { i with poolShare := 2 * i.poolShare }
      = solveFeerateForTarget i := rfl
  have hconf : ∀ f : ℝ, confirmedVbPerDay f { i with poolShare := 2 * i.poolShare }
      = confirmedVbPerDay f i := fun _ => rfl
  refine ⟨?_, ?_, ?_, ?_, ?_⟩ <;>
    simp only [computeFullModel, hsolve, hconf] <;> ring

/-- C7: with `btcPrice > 0`, `costPerTHDay > 0` and `margin ≥ 0`, including
block rewards strictly increases `networkRevenueUSD` and
`equilibriumHashrateTH`, while the fee-revenue term is unchanged. -/
theorem computeFullModel_reward_inclusion (i : EconomicInputs)
    (hP : 0 < i.btcPrice) (hc : 0 < i.costPerTHDay) (hm : 0 ≤ i.margin) :
    (computeFullModel i false).networkRevenueUSD
        < (computeFullModel i true).networkRevenueUSD ∧
    (computeFullModel i false).equilibriumHashrateTH
        < (computeFullModel i true).equilibriumHashrateTH ∧
    (computeFullModel i true).dailyFeeRevenueUSD
        = (computeFullModel i false).dailyFeeRevenueUSD := by
  have h450 : (0:ℝ) < 450 * i.btcPrice := mul_pos (by norm_num) hP
  have hrev : (computeFullModel i false).networkRevenueUSD
      < (computeFullModel i true).networkRevenueUSD := by
    simp only [computeFullModel, usd]
    norm_num [BLOCKS_PER_DAY]
    linarith [h450]
  refine ⟨hrev, ?_, rfl⟩
  have hd : 0 < i.costPerTHDay * (1 + i.margin) := by nlinarith
  have h1 : (computeFullModel i false).equilibriumHashrateTH
      = (computeFullModel i false).networkRevenueUSD
          / (i.costPerTHDay * (1 + i.margin)) := rfl
  have h2 : (computeFullModel i true).equilibriumHashrateTH
      = (computeFullModel i true).networkRevenueUSD
          / (i.costPerTHDay * (1 + i.margin)) := rfl
  rw [h1, h2]
  exact (div_lt_div_iff_of_pos_right hd).mpr hrev

/-- Witness for C7 at the concrete `linInputs 100` record. -/
theorem computeFullModel_reward_inclusion_witness :
    (computeFullModel (linInputs 100) false).networkRevenueUSD
        < (computeFullModel (linInputs 100) true).networkRevenueUSD ∧
    (computeFullModel (linInputs 100) false).equilibriumHashrateTH
        < (computeFullModel (linInputs 100) true).equilibriumHashrateTH :=
  ⟨(computeFullModel_reward_inclusion (linInputs 100) (by norm_num [linInputs])
      (by norm_num [linInputs]) (by norm_num [linInputs])).1,
   (computeFullModel_reward_inclusion (linInputs 100) (by norm_num [linInputs])
      (by norm_num [linInputs]) (by norm_num [linInputs])).2.1⟩

/-- C2 (amended): for `btcPrice > 0`, `baselineFeerate > 0`,
`baselineDemandVbDay > 0`, `batchingFactor ≥ 1`, `blockLimitMB ≥ 0` (the
data-model invariant) and `elasticity ≥ -1`, `feesUsdPerDay` is
non-decreasing in the feerate over `[1, 100000]`.  (For elasticity below
`-1` the unclipped fee curve `f ↦ f^(1+elasticity)` is strictly decreasing,
so the original any-elasticity claim fails.) -/
theorem feesUsdPerDay_monotone (i : EconomicInputs) (f1 f2 : ℝ)
    (hP : 0 < i.btcPrice) (hf0 : 0 < i.baselineFeerate)
    (hQ : 0 < i.baselineDemandVbDay) (hb : 1 ≤ i.batchingFactor.getD 1)
    (hBL : 0 ≤ i.blockLimitMB) (he : -1 ≤ i.elasticity)
    (h1 : 1 ≤ f1) (h12 : f1 ≤ f2) (h2 : f2 ≤ 100000) :
    feesUsdPerDay f1 i ≤ feesUsdPerDay f2 i := by
  have hb0 : (0:ℝ) < i.batchingFactor.getD 1 := lt_of_lt_of_le one_pos hb
  have hf1 : (0:ℝ) < f1 := lt_of_lt_of_le one_pos h1
  have hf2 : (0:ℝ) < f2 := lt_of_lt_of_le hf1 h12
  have key : ∀ f : ℝ, 0 < f → f * demandVbPerDay f i
      = i.baselineDemandVbDay / i.batchingFactor.getD 1 * i.baselineFeerate
          * (f / i.baselineFeerate) ^ (1 + i.elasticity) := by
    intro f hf
    have hq : 0 < f / i.baselineFeerate := div_pos hf hf0
    rw [demandVbPerDay, Real.rpow_add hq, Real.rpow_one]
    field_simp
    ring
  have hsup : (0:ℝ) ≤ blockLimitVb i.blockLimitMB * BLOCKS_PER_DAY := by
    rw [blockLimitVb, BLOCKS_PER_DAY]
    nlinarith
  have hmul : f1 * demandVbPerDay f1 i ≤ f2 * demandVbPerDay f2 i := by
    rw [key f1 hf1, key f2 hf2]
    have hcoef : (0:ℝ) ≤ i.baselineDemandVbDay / i.batchingFactor.getD 1
        * i.baselineFeerate := by positivity
    refine mul_le_mul_of_nonneg_left ?_ hcoef
    refine Real.rpow_le_rpow (le_of_lt (div_pos hf1 hf0)) ?_ (by linarith)
    gcongr
  have hSAT : (0:ℝ) < SATOSHIS_PER_BTC := by norm_num [SATOSHIS_PER_BTC]
  rw [feesUsdPerDay, feesUsdPerDay, usd, usd, confirmedVbPerDay, confirmedVbPerDay]
  refine mul_le_mul_of_nonneg_right ?_ hP.le
  refine (div_le_div_iff_of_pos_right hSAT).mpr ?_
  rw [mul_min_of_nonneg _ _ hf1.le, mul_min_of_nonneg _ _ hf2.le]
  exact min_le_min hmul (mul_le_mul_of_nonneg_right h12 hsup)

/-- C2 counterexample: on `steepInputs` (elasticity `-2`, all the claim's
hypotheses satisfied, demand unclipped) the fee revenue strictly decreases
from feerate 1 to feerate 2, refuting monotonicity for arbitrary
elasticity. -/
theorem feesUsd_not_monotone_for_steep_elasticity :
    0 < steepInputs.btcPrice ∧ 0 < steepInputs.baselineFeerate ∧
    0 < steepInputs.baselineDemandVbDay ∧
    1 ≤ steepInputs.batchingFactor.getD 1 ∧
    (1:ℝ) ≤ 2 ∧ (2:ℝ) ≤ 100000 ∧
    feesUsdPerDay 2 steepInputs < feesUsdPerDay 1 steepInputs := by
  have hpow : (2:ℝ) ^ (-2:ℝ) = 1/4 := by
    rw [show (-2:ℝ) = ((-2:ℤ):ℝ) by norm_num, Real.rpow_intCast]
    norm_num
  have hdem2 : demandVbPerDay 2 steepInputs = 25000000 := by
    rw [demandVbPerDay]
    norm_num [steepInputs, hpow]
  have hcon2 : confirmedVbPerDay 2 steepInputs = 25000000 := by
    rw [confirmedVbPerDay, hdem2]
    exact min_eq_left (by norm_num [steepInputs, blockLimitVb, BLOCKS_PER_DAY])
  have hfee2 : feesUsdPerDay 2 steepInputs = 1/2 := by
    rw [feesUsdPerDay, hcon2]
    norm_num [steepInputs, usd, SATOSHIS_PER_BTC]
  have hdem1 : demandVbPerDay 1 steepInputs = 1e8 := by
    rw [demandVbPerDay]
    norm_num [steepInputs]
  have hcon1 : confirmedVbPerDay 1 steepInputs = 1e8 := by
    rw [confirmedVbPerDay, hdem1]
    exact min_eq_left (by norm_num [steepInputs, blockLimitVb, BLOCKS_PER_DAY])
  have hfee1 : feesUsdPerDay 1 steepInputs = 1 := by
    rw [feesUsdPerDay, hcon1]
    norm_num [steepInputs, usd, SATOSHIS_PER_BTC]
  refine ⟨by norm_num [steepInputs], by norm_num [steepInputs],
    by norm_num [steepInputs], by norm_num [steepInputs],
    by norm_num, by norm_num, ?_⟩
  rw [hfee1, hfee2]
  norm_num

/-- Witness for C2's amended monotonicity at `linInputs 100`, feerates 3 and 7. -/
theorem feesUsdPerDay_monotone_witness :
    feesUsdPerDay 3 (linInputs 100) ≤ feesUsdPerDay 7 (linInputs 100) :=
  feesUsdPerDay_monotone (linInputs 100) 3 7 (by norm_num [linInputs])
    (by norm_num [linInputs]) (by norm_num [linInputs]) (by simp [linInputs])
    (by norm_num [linInputs]) (by norm_num [linInputs]) (by norm_num)
    (by norm_num) (by norm_num)

/-- C4 (code bug evidence): with `securityBudgetMode = "percent_of_2025"`
and `alpha` missing, the runtime `securityBudgetTargetUsd` does not throw:
the non-null assertion is erased, `undefined * base2025RevenueUsd` is `NaN`,
and the call returns that `NaN` as a successful numeric result. -/
theorem securityBudget_missing_alpha_returns_nan :
    securityBudgetTargetUsdJS
      { securityBudgetMode := "percent_of_2025", alpha := none,
        base2025RevenueUsd := some 45000000, beta := none,
        settlementUsdDay := none, absoluteUsdDay := none }
      = .ok none := by
  rfl

/-- C6: the runtime `securityBudgetTargetUsd` returns
`alpha * base2025RevenueUsd` for `percent_of_2025`,
`beta * settlementUsdDay` for `percent_of_settlement_value`,
`absoluteUsdDay` for `absolute_usd`, and throws
`"Invalid security budget mode"` for every other mode value. -/
theorem securityBudgetTargetUsdJS_spec (i : RawBudgetInputs) :
    (∀ a b2 : ℝ, i.securityBudgetMode = "percent_of_2025" → i.alpha = some a →
      i.base2025RevenueUsd = some b2 →
      securityBudgetTargetUsdJS i = .ok (some (a * b2))) ∧
    (∀ bv s : ℝ, i.securityBudgetMode = "percent_of_settlement_value" →
      i.beta = some bv → i.settlementUsdDay = some s →
      securityBudgetTargetUsdJS i = .ok (some (bv * s))) ∧
    (i.securityBudgetMode = "absolute_usd" →
      securityBudgetTargetUsdJS i = .ok i.absoluteUsdDay) ∧
    (i.securityBudgetMode ≠ "percent_of_2025" →
      i.securityBudgetMode ≠ "percent_of_settlement_value" →
      i.securityBudgetMode ≠ "absolute_usd" →
      securityBudgetTargetUsdJS i = .error "Invalid security budget mode") := by
  refine ⟨?_, ?_, ?_, ?_⟩ <;> intros <;>
    simp_all [securityBudgetTargetUsdJS, jsMul]

/-- Witness for C6 at a concrete unrecognized mode string. -/
theorem securityBudgetTargetUsdJS_spec_witness :
    securityBudgetTargetUsdJS
      { securityBudgetMode := "fee_floor", alpha := none,
        base2025RevenueUsd := none, beta := none,
        settlementUsdDay := none, absoluteUsdDay := some 5 }
      = .error "Invalid security budget mode" :=
  (securityBudgetTargetUsdJS_spec _).2.2.2 (by decide) (by decide) (by decide)



section SolverLemmas

variable (c : ℝ → ℝ) (p t : ℝ)

lemma solverStep_update_lo (s : SolverState)
    (hup : gapLtBest (|feesAt c p ((s.lo + s.hi) / 2) - t| / t) s.bestGap = true)
    (hbr : ¬ t ≤ feesAt c p ((s.lo + s.hi) / 2)) :
    solverStep c p t s =
      { lo := (s.lo + s.hi) / 2, hi := s.hi,
        bestFeerate := (s.lo + s.hi) / 2,
        bestGap := some (|feesAt c p ((s.lo + s.hi) / 2) - t| / t),
        bestFeesUsd := feesAt c p ((s.lo + s.hi) / 2),
        bestDemand := c ((s.lo + s.hi) / 2) / 1e6 } := by
  simp [solverStep, hup, hbr]

lemma solverStep_update_hi (s : SolverState)
    (hup : gapLtBest (|feesAt c p ((s.lo + s.hi) / 2) - t| / t) s.bestGap = true)
    (hbr : t ≤ feesAt c p ((s.lo + s.hi) / 2)) :
    solverStep c p t s =
      { lo := s.lo, hi := (s.lo + s.hi) / 2,
        bestFeerate := (s.lo + s.hi) / 2,
        bestGap := some (|feesAt c p ((s.lo + s.hi) / 2) - t| / t),
        bestFeesUsd := feesAt c p ((s.lo + s.hi) / 2),
        bestDemand := c ((s.lo + s.hi) / 2) / 1e6 } := by
  simp [solverStep, hup, hbr]

lemma solverStep_noupdate_hi (s : SolverState)
    (hup : gapLtBest (|feesAt c p ((s.lo + s.hi) / 2) - t| / t) s.bestGap = false)
    (hbr : t ≤ feesAt c p ((s.lo + s.hi) / 2)) :
    solverStep c p t s = { s with hi := (s.lo + s.hi) / 2 } := by
  simp [solverStep, hup, hbr]

lemma solverStep_tracked (s : SolverState) (h : Tracked c p s) :
    Tracked c p (solverStep c p t s) := by
  unfold Tracked at h ⊢
  simp only [solverStep]
  split <;> split <;> simp_all

lemma solverStep_tracked_of_none (s : SolverState) (h : s.bestGap = none) :
    Tracked c p (solverStep c p t s) := by
  unfold Tracked
  simp only [solverStep, h, gapLtBest]
  split <;> simp

lemma solverGo_tracked (n : Nat) :
    ∀ s, Tracked c p s → Tracked c p (solverGo c p t n s) := by
  induction n with
  | zero => exact fun s h => h
  | succ n ih =>
    intro s h
    simp only [solverGo]
    split
    · exact solverStep_tracked c p t s h
    · exact ih _ (solverStep_tracked c p t s h)

lemma solverGo_succ_tracked (n : Nat) (s : SolverState) (h : s.bestGap = none) :
    Tracked c p (solverGo c p t (n + 1) s) := by
  simp only [solverGo]
  split
  · exact solverStep_tracked_of_none c p t s h
  · exact solverGo_tracked c p t n _ (solverStep_tracked_of_none c p t s h)

end SolverLemmas

/-- C1: `solveFeerateForTarget` computes and returns
`targetFeesUsd = securityBudgetTargetUsd / (1 + mevUplift)`, reports
`targetMet = true` exactly when the final relative gap has absolute value
at most `0.0025`, and the returned `gap` is the relative gap of the best
candidate feerate it returns (so the candidate and its gap are reported
even when the target is missed). -/
theorem solveFeerateForTarget_spec (i : EconomicInputs) :
    (solveFeerateForTarget i).targetFeesUsd
        = securityBudgetTargetUsd i / (1 + i.mevUplift) ∧
    ((solveFeerateForTarget i).targetMet = true ↔
      |(solveFeerateForTarget i).gap| ≤ 0.0025) ∧
    (solveFeerateForTarget i).gap
        = (feesUsdPerDay (solveFeerateForTarget i).feerate i
            - (solveFeerateForTarget i).targetFeesUsd)
          / (solveFeerateForTarget i).targetFeesUsd := by
  refine ⟨rfl, ?_, ?_⟩
  · simp [solveFeerateForTarget, decide_eq_true_eq]
  · have htr : Tracked (fun f => confirmedVbPerDay f i) i.btcPrice
        (solverGo (fun f => confirmedVbPerDay f i) i.btcPrice
          (securityBudgetTargetUsd i / (1 + i.mevUplift)) 100
          { lo := 1, hi := 100000, bestFeerate := 100000, bestGap := none,
            bestFeesUsd := 0, bestDemand := 0 }) := by
      rw [show (100:Nat) = 99 + 1 from rfl]
      exact solverGo_succ_tracked _ _ _ 99 _ rfl
    unfold Tracked at htr
    simp only [solveFeerateForTarget]
    rw [htr]
    rfl

section UnreachableTarget

variable (c : ℝ → ℝ) (p t : ℝ)

lemma unreachable_step (hT : 0 < t)
    (Hlt : ∀ f, 1 ≤ f → f ≤ 100000 → feesAt c p f < t)
    (Hmono : ∀ x y, 1 ≤ x → x < y → y ≤ 100000 → feesAt c p x < feesAt c p y)
    (s : SolverState) (h : UnreachableInv c p t s) :
    UnreachableInv c p t (solverStep c p t s) ∧
      (solverStep c p t s).lo = (s.lo + 100000) / 2 := by
  obtain ⟨hhi, hlo1, hlo2, hbf, hbfu, hbg⟩ := h
  have hmid1 : (1:ℝ) ≤ (s.lo + s.hi) / 2 := by rw [hhi]; linarith
  have hmidlt : (s.lo + s.hi) / 2 < 100000 := by rw [hhi]; linarith
  have hlomid : s.lo < (s.lo + s.hi) / 2 := by rw [hhi]; linarith
  have hflt : feesAt c p ((s.lo + s.hi) / 2) < t := Hlt _ hmid1 (le_of_lt hmidlt)
  have hflo : feesAt c p s.lo < t := Hlt _ hlo1 (le_of_lt hlo2)
  have hfmono : feesAt c p s.lo < feesAt c p ((s.lo + s.hi) / 2) :=
    Hmono _ _ hlo1 hlomid (le_of_lt hmidlt)
  have habs1 : |feesAt c p ((s.lo + s.hi) / 2) - t|
      = t - feesAt c p ((s.lo + s.hi) / 2) := by
    rw [abs_of_neg (by linarith)]; ring
  have habs2 : |feesAt c p s.lo - t| = t - feesAt c p s.lo := by
    rw [abs_of_neg (by linarith)]; ring
  have hup : gapLtBest (|feesAt c p ((s.lo + s.hi) / 2) - t| / t) s.bestGap
      = true := by
    rw [hbg]
    simp only [gapLtBest]
    rw [decide_eq_true_eq, habs1, habs2]
    exact (div_lt_div_iff_of_pos_right hT).mpr (by linarith)
  have hbr : ¬ t ≤ feesAt c p ((s.lo + s.hi) / 2) := not_le.mpr hflt
  rw [solverStep_update_lo c p t s hup hbr]
  refine ⟨⟨hhi, hmid1, hmidlt, rfl, rfl, rfl⟩, ?_⟩
  rw [hhi]

lemma unreachable_go (hT : 0 < t)
    (Hlt : ∀ f, 1 ≤ f → f ≤ 100000 → feesAt c p f < t)
    (Hmono : ∀ x y, 1 ≤ x → x < y → y ≤ 100000 → feesAt c p x < feesAt c p y) :
    ∀ (n : Nat) (s), UnreachableInv c p t s →
      UnreachableInv c p t (solverGo c p t n s) ∧
        100000 - (solverGo c p t n s).lo
          ≤ max 0.001 ((100000 - s.lo) / 2 ^ n) := by
  intro n
  induction n with
  | zero =>
    intro s h
    refine ⟨h, ?_⟩
    simp only [solverGo, pow_zero, div_one]
    exact le_max_right _ _
  | succ n ih =>
    intro s h
    obtain ⟨h1, hlo⟩ := unreachable_step c p t hT Hlt Hmono s h
    simp only [solverGo]
    split
    · rename_i hbrk
      refine ⟨h1, ?_⟩
      have hhi1 : (solverStep c p t s).hi = 100000 := h1.1
      refine le_trans ?_ (le_max_left _ _)
      rw [← hhi1]
      exact le_of_lt hbrk
    · obtain ⟨h2, hb⟩ := ih (solverStep c p t s) h1
      refine ⟨h2, ?_⟩
      have heq : (100000 - (solverStep c p t s).lo) / 2 ^ n
          = (100000 - s.lo) / 2 ^ (n + 1) := by
        rw [hlo]
        field_simp
        ring
      rw [heq] at hb
      exact hb

end UnreachableTarget


lemma solverUnreachableCore (i : EconomicInputs)
    (hT : 0 < targetOf i)
    (Hlt : ∀ f, 1 ≤ f → f ≤ 100000 → feesUsdPerDay f i < targetOf i)
    (Hmono : ∀ x y, 1 ≤ x → x < y → y ≤ 100000 →
      feesUsdPerDay x i < feesUsdPerDay y i)
    (Hceil : feesUsdPerDay 100000 i < 0.9975 * targetOf i) :
    100000 - 0.001 ≤ (solveFeerateForTarget i).feerate ∧
    (solveFeerateForTarget i).feerate < 100000 ∧
    (solveFeerateForTarget i).targetMet = false ∧
    (solveFeerateForTarget i).gap < 0 := by
  set c : ℝ → ℝ := fun f => confirmedVbPerDay f i with hc
  set T : ℝ := securityBudgetTargetUsd i / (1 + i.mevUplift) with hTdef
  set initL : SolverState :=
    { lo := 1, hi := 100000, bestFeerate := 100000, bestGap := none,
      bestFeesUsd := 0, bestDemand := 0 } with hinitL
  set s1 : SolverState :=
    { lo := ((1:ℝ) + 100000) / 2, hi := 100000,
      bestFeerate := ((1:ℝ) + 100000) / 2,
      bestGap := some (|feesAt c i.btcPrice (((1:ℝ) + 100000) / 2) - T| / T),
      bestFeesUsd := feesAt c i.btcPrice (((1:ℝ) + 100000) / 2),
      bestDemand := c (((1:ℝ) + 100000) / 2) / 1e6 } with hs1
  have hfeq : ∀ f : ℝ, feesAt c i.btcPrice f = feesUsdPerDay f i := fun f => rfl
  have hT' : 0 < T := hT
  have Hlt' : ∀ f, 1 ≤ f → f ≤ 100000 → feesAt c i.btcPrice f < T := by
    intro f h1 h2
    rw [hfeq]
    exact Hlt f h1 h2
  have Hmono' : ∀ x y, 1 ≤ x → x < y → y ≤ 100000 →
      feesAt c i.btcPrice x < feesAt c i.btcPrice y := by
    intro x y h1 h2 h3
    rw [hfeq, hfeq]
    exact Hmono x y h1 h2 h3
  have Hceil' : feesAt c i.btcPrice 100000 < 0.9975 * T := by
    rw [hfeq]
    exact Hceil
  have hup1 : gapLtBest
      (|feesAt c i.btcPrice ((initL.lo + initL.hi) / 2) - T| / T)
      initL.bestGap = true := rfl
  have hbr1 : ¬ T ≤ feesAt c i.btcPrice ((initL.lo + initL.hi) / 2) := by
    refine not_le.mpr ?_
    exact Hlt' ((1 + 100000) / 2) (by norm_num) (by norm_num)
  have hstep : solverStep c i.btcPrice T initL = s1 := by
    rw [solverStep_update_lo c i.btcPrice T initL hup1 hbr1]
  have hgo : solverGo c i.btcPrice T 100 initL = solverGo c i.btcPrice T 99 s1 := by
    rw [show (100:Nat) = 99 + 1 from rfl]
    simp only [solverGo]
    rw [hstep, if_neg (by norm_num [hs1])]
  have hinv1 : UnreachableInv c i.btcPrice T s1 :=
    ⟨rfl, by norm_num [hs1], by norm_num [hs1], rfl, rfl, rfl⟩
  obtain ⟨hfin, hwid⟩ :=
    unreachable_go c i.btcPrice T hT' Hlt' Hmono' 99 s1 hinv1
  obtain ⟨hfhi, hflo1, hflo2, hfbf, hfbu, hfbg⟩ := hfin
  have hs1lo : s1.lo = ((1:ℝ) + 100000) / 2 := rfl
  rw [hs1lo] at hwid
  have hmax : max (0.001:ℝ) ((100000 - ((1:ℝ) + 100000) / 2) / 2 ^ 99) = 0.001 := by
    apply max_eq_left
    rw [div_le_iff₀ (by positivity)]
    norm_num
  rw [hmax] at hwid
  have hlt_lo : feesAt c i.btcPrice (solverGo c i.btcPrice T 99 s1).lo
      < 0.9975 * T :=
    lt_trans (Hmono' _ 100000 hflo1 hflo2 le_rfl) Hceil'
  have hfe : (solveFeerateForTarget i).feerate
      = (solverGo c i.btcPrice T 100 initL).bestFeerate := rfl
  have hgap : (solveFeerateForTarget i).gap
      = ((solverGo c i.btcPrice T 100 initL).bestFeesUsd - T) / T := rfl
  have hmet : (solveFeerateForTarget i).targetMet
      = decide (|((solverGo c i.btcPrice T 100 initL).bestFeesUsd - T) / T|
          ≤ 0.0025) := rfl
  refine ⟨?_, ?_, ?_, ?_⟩
  · rw [hfe, hgo, hfbf]
    linarith
  · rw [hfe, hgo, hfbf]
    exact hflo2
  · rw [hmet]
    apply decide_eq_false
    rw [hgo, hfbu, not_le]
    have habs : |(feesAt c i.btcPrice (solverGo c i.btcPrice T 99 s1).lo - T) / T|
        = (T - feesAt c i.btcPrice (solverGo c i.btcPrice T 99 s1).lo) / T := by
      rw [abs_div, abs_of_pos hT', abs_of_neg (by nlinarith)]
      ring
    rw [habs, lt_div_iff₀ hT']
    nlinarith
  · rw [hgap, hgo, hfbu]
    apply div_neg_of_neg_of_pos _ hT'
    nlinarith

section NegativeTarget

variable (c : ℝ → ℝ) (p t : ℝ)

lemma negtarget_step (hT : t < 0)
    (Hnn : ∀ f, 1 < f → f ≤ 100000 → 0 ≤ feesAt c p f)
    (Hmono : ∀ x y, 1 < x → x ≤ y → y ≤ 100000 → feesAt c p x ≤ feesAt c p y)
    (s : SolverState) (h : NegTargetInv c p t s) :
    NegTargetInv c p t (solverStep c p t s) := by
  obtain ⟨hlo, hhi1, hhi2, hbf, hbfu, hbg⟩ := h
  have hmid1 : 1 < (s.lo + s.hi) / 2 := by rw [hlo]; linarith
  have hmid2 : (s.lo + s.hi) / 2 ≤ 50000.5 := by rw [hlo]; linarith
  have hmid3 : (s.lo + s.hi) / 2 ≤ 100000 := by linarith
  have hf0 : 0 ≤ feesAt c p ((s.lo + s.hi) / 2) := Hnn _ hmid1 hmid3
  have hf5nn : 0 ≤ feesAt c p 50000.5 := Hnn 50000.5 (by norm_num) (by norm_num)
  have hbr : t ≤ feesAt c p ((s.lo + s.hi) / 2) := le_trans (le_of_lt hT) hf0
  have hfm : feesAt c p ((s.lo + s.hi) / 2) ≤ feesAt c p 50000.5 :=
    Hmono _ _ hmid1 hmid2 (by norm_num)
  have habs1 : |feesAt c p ((s.lo + s.hi) / 2) - t|
      = feesAt c p ((s.lo + s.hi) / 2) - t := abs_of_nonneg (by linarith)
  have habs5 : |feesAt c p 50000.5 - t| = feesAt c p 50000.5 - t :=
    abs_of_nonneg (by linarith)
  have hup : gapLtBest (|feesAt c p ((s.lo + s.hi) / 2) - t| / t) s.bestGap
      = false := by
    rw [hbg]
    simp only [gapLtBest]
    rw [decide_eq_false_iff_not, habs1, habs5, not_lt]
    exact (div_le_div_right_of_neg hT).mpr (by linarith)
  rw [solverStep_noupdate_hi c p t s hup hbr]
  exact ⟨hlo, hmid1, hmid2, hbf, hbfu, hbg⟩

lemma negtarget_go (hT : t < 0)
    (Hnn : ∀ f, 1 < f → f ≤ 100000 → 0 ≤ feesAt c p f)
    (Hmono : ∀ x y, 1 < x → x ≤ y → y ≤ 100000 → feesAt c p x ≤ feesAt c p y) :
    ∀ (n : Nat) (s), NegTargetInv c p t s →
      NegTargetInv c p t (solverGo c p t n s) := by
  intro n
  induction n with
  | zero => exact fun s h => h
  | succ n ih =>
    intro s h
    simp only [solverGo]
    split
    · exact negtarget_step c p t hT Hnn Hmono s h
    · exact ih _ (negtarget_step c p t hT Hnn Hmono s h)

end NegativeTarget

lemma solverNegTargetCore (i : EconomicInputs)
    (hT : targetOf i < 0)
    (Hnn : ∀ f, 1 < f → f ≤ 100000 → 0 ≤ feesUsdPerDay f i)
    (Hmono : ∀ x y, 1 < x → x ≤ y → y ≤ 100000 →
      feesUsdPerDay x i ≤ feesUsdPerDay y i) :
    (solveFeerateForTarget i).feerate = 50000.5 ∧
    (solveFeerateForTarget i).targetMet = false ∧
    (solveFeerateForTarget i).gap ≤ -1 := by
  set c : ℝ → ℝ := fun f => confirmedVbPerDay f i with hc
  set T : ℝ := securityBudgetTargetUsd i / (1 + i.mevUplift) with hTdef
  set initL : SolverState :=
    { lo := 1, hi := 100000, bestFeerate := 100000, bestGap := none,
      bestFeesUsd := 0, bestDemand := 0 } with hinitL
  set s1 : SolverState :=
    { lo := 1, hi := (50000.5:ℝ),
      bestFeerate := (50000.5:ℝ),
      bestGap := some (|feesAt c i.btcPrice (50000.5:ℝ) - T| / T),
      bestFeesUsd := feesAt c i.btcPrice (50000.5:ℝ),
      bestDemand := c (50000.5:ℝ) / 1e6 } with hs1
  have hfeq : ∀ f : ℝ, feesAt c i.btcPrice f = feesUsdPerDay f i := fun f => rfl
  have hT' : T < 0 := hT
  have Hnn' : ∀ f, 1 < f → f ≤ 100000 → 0 ≤ feesAt c i.btcPrice f := by
    intro f h1 h2
    rw [hfeq]
    exact Hnn f h1 h2
  have Hmono' : ∀ x y, 1 < x → x ≤ y → y ≤ 100000 →
      feesAt c i.btcPrice x ≤ feesAt c i.btcPrice y := by
    intro x y h1 h2 h3
    rw [hfeq, hfeq]
    exact Hmono x y h1 h2 h3
  have hf5nn : 0 ≤ feesAt c i.btcPrice ((initL.lo + initL.hi) / 2) := by
    refine Hnn' _ ?_ ?_ <;> norm_num [hinitL]
  have hup1 : gapLtBest
      (|feesAt c i.btcPrice ((initL.lo + initL.hi) / 2) - T| / T)
      initL.bestGap = true := rfl
  have hbr1 : T ≤ feesAt c i.btcPrice ((initL.lo + initL.hi) / 2) :=
    le_trans (le_of_lt hT') hf5nn
  have hstep : solverStep c i.btcPrice T initL = s1 := by
    rw [solverStep_update_hi c i.btcPrice T initL hup1 hbr1, hs1]
    norm_num
  have hgo : solverGo c i.btcPrice T 100 initL = solverGo c i.btcPrice T 99 s1 := by
    rw [show (100:Nat) = 99 + 1 from rfl]
    simp only [solverGo]
    rw [hstep, if_neg (by norm_num [hs1])]
  have hinv1 : NegTargetInv c i.btcPrice T s1 :=
    ⟨rfl, by norm_num [hs1], by norm_num [hs1], rfl, rfl, rfl⟩
  have hfin := negtarget_go c i.btcPrice T hT' Hnn' Hmono' 99 s1 hinv1
  obtain ⟨hflo, hfhi1, hfhi2, hfbf, hfbu, hfbg⟩ := hfin
  have hf5nn' : 0 ≤ feesAt c i.btcPrice 50000.5 :=
    Hnn' 50000.5 (by norm_num) (by norm_num)
  have hfe : (solveFeerateForTarget i).feerate
      = (solverGo c i.btcPrice T 100 initL).bestFeerate := rfl
  have hgap : (solveFeerateForTarget i).gap
      = ((solverGo c i.btcPrice T 100 initL).bestFeesUsd - T) / T := rfl
  have hmet : (solveFeerateForTarget i).targetMet
      = decide (|((solverGo c i.btcPrice T 100 initL).bestFeesUsd - T) / T|
          ≤ 0.0025) := rfl
  have hgapval : (solveFeerateForTarget i).gap ≤ -1 := by
    rw [hgap, hgo, hfbu]
    rw [div_le_iff_of_neg hT']
    linarith
  refine ⟨?_, ?_, hgapval⟩
  · rw [hfe, hgo, hfbf]
  · rw [hmet]
    apply decide_eq_false
    intro habs
    have h1 := (abs_le.mp habs).1
    rw [hgo, hfbu] at h1
    have h2 : (feesAt c i.btcPrice 50000.5 - T) / T ≤ -1 := by
      rw [div_le_iff_of_neg hT']
      linarith
    linarith

/-- C3 (amended): when the target exceeds the fee curve at every feerate of
the search domain by more than the 0.25% tolerance and the curve is strictly
increasing (e.g. elasticity in `(-1, 0]`), the solver terminates (it is a
total function bounded by 100 iterations by construction) and returns a
feerate within the 0.001 bracket threshold of the 100000 sat/vB ceiling with
`targetMet = false` and a large *negative* gap (the returned relative gap
`(bestFeesUsd - target)/target` is below zero, not positive, since the best
revenue found falls short of the target). -/
theorem solveFeerateForTarget_unreachable (i : EconomicInputs)
    (hT : 0 < targetOf i)
    (Hlt : ∀ f, 1 ≤ f → f ≤ 100000 → feesUsdPerDay f i < targetOf i)
    (Hmono : ∀ x y, 1 ≤ x → x < y → y ≤ 100000 →
      feesUsdPerDay x i < feesUsdPerDay y i)
    (Hceil : feesUsdPerDay 100000 i < 0.9975 * targetOf i) :
    100000 - 0.001 ≤ (solveFeerateForTarget i).feerate ∧
    (solveFeerateForTarget i).feerate < 100000 ∧
    (solveFeerateForTarget i).targetMet = false ∧
    (solveFeerateForTarget i).gap < 0 :=
  solverUnreachableCore i hT Hlt Hmono Hceil

/-- C3 counterexample: on `linInputs 1000000000` (fee revenue `f` USD/day at
feerate `f`, target `1e9` USD/day) the claim's premise holds — the target
exceeds `feesUsdPerDay` everywhere on `[1, 100000]` — yet the returned gap
is negative, not the claimed "large positive gap". -/
theorem solver_unreachable_returns_negative_gap :
    (∀ f : ℝ, 1 ≤ f → f ≤ 100000 →
      feesUsdPerDay f (linInputs 1000000000)
        < (solveFeerateForTarget (linInputs 1000000000)).targetFeesUsd) ∧
    (solveFeerateForTarget (linInputs 1000000000)).gap < 0 := by
  have htf : (solveFeerateForTarget (linInputs 1000000000)).targetFeesUsd
      = 1000000000 := by
    have h1 : (solveFeerateForTarget (linInputs 1000000000)).targetFeesUsd
        = targetOf (linInputs 1000000000) := rfl
    rw [h1, targetOf_linInputs]
  constructor
  · intro f h1 h2
    rw [htf, fees_linInputs]
    linarith
  · exact (solverUnreachableCore (linInputs 1000000000)
      (by rw [targetOf_linInputs]; norm_num)
      (by intro f h1 h2; rw [fees_linInputs, targetOf_linInputs]; linarith)
      (by intro x y h1 h2 h3; rw [fees_linInputs, fees_linInputs]; exact h2)
      (by rw [fees_linInputs, targetOf_linInputs]; norm_num)).2.2.2

/-- Witness for C3's amended theorem at `linInputs 1000000000`. -/
theorem solveFeerateForTarget_unreachable_witness :
    (solveFeerateForTarget (linInputs 1000000000)).targetMet = false ∧
    100000 - 0.001 ≤ (solveFeerateForTarget (linInputs 1000000000)).feerate := by
  have h := solveFeerateForTarget_unreachable (linInputs 1000000000)
    (by rw [targetOf_linInputs]; norm_num)
    (by intro f h1 h2; rw [fees_linInputs, targetOf_linInputs]; linarith)
    (by intro x y h1 h2 h3; rw [fees_linInputs, fees_linInputs]; exact h2)
    (by rw [fees_linInputs, targetOf_linInputs]; norm_num)
  exact ⟨h.2.2.1, h.1⟩

/-- C5 (amended): for `targetFeesUsd < 0` (degenerate budget) with a
nonnegative, non-decreasing fee-revenue curve, the solver does *not*
resolve near the search floor: the best-candidate tracking pins the first
midpoint, so the returned feerate is exactly `50000.5` sat/vB (the bracket's
`lo` end does converge to the floor, but it is not what is returned), with
`targetMet = false` and `gap ≤ -1`.  The returned feerate in particular
need not exceed `baselineFeerate` — but not because it is near the floor. -/
theorem solveFeerateForTarget_negative_target (i : EconomicInputs)
    (hT : targetOf i < 0)
    (Hnn : ∀ f, 1 < f → f ≤ 100000 → 0 ≤ feesUsdPerDay f i)
    (Hmono : ∀ x y, 1 < x → x ≤ y → y ≤ 100000 →
      feesUsdPerDay x i ≤ feesUsdPerDay y i) :
    (solveFeerateForTarget i).feerate = 50000.5 ∧
    (solveFeerateForTarget i).targetMet = false ∧
    (solveFeerateForTarget i).gap ≤ -1 :=
  solverNegTargetCore i hT Hnn Hmono

/-- C5 counterexample: on `linInputs (-1)` the computed `targetFeesUsd` is
`-1 ≤ 0`, yet the solver returns feerate `50000.5` — the middle of the
search range, not "near the search floor (1 sat/vB)". -/
theorem solver_negative_target_not_near_floor :
    (solveFeerateForTarget (linInputs (-1))).targetFeesUsd ≤ 0 ∧
    (solveFeerateForTarget (linInputs (-1))).feerate = 50000.5 ∧
    (1000:ℝ) < (solveFeerateForTarget (linInputs (-1))).feerate := by
  have hcore := solverNegTargetCore (linInputs (-1))
    (by rw [targetOf_linInputs]; norm_num)
    (fun f h1 h2 => by rw [fees_linInputs]; linarith)
    (fun x y h1 h2 h3 => by rw [fees_linInputs, fees_linInputs]; exact h2)
  refine ⟨?_, hcore.1, ?_⟩
  · have h1 : (solveFeerateForTarget (linInputs (-1))).targetFeesUsd
        = targetOf (linInputs (-1)) := rfl
    rw [h1, targetOf_linInputs]
    norm_num
  · rw [hcore.1]
    norm_num

/-- Witness for C5's amended theorem at `linInputs (-1)`. -/
theorem solveFeerateForTarget_negative_target_witness :
    (solveFeerateForTarget (linInputs (-1))).feerate = 50000.5 ∧
    (solveFeerateForTarget (linInputs (-1))).targetMet = false := by
  have h := solveFeerateForTarget_negative_target (linInputs (-1))
    (by rw [targetOf_linInputs]; norm_num)
    (fun f h1 h2 => by rw [fees_linInputs]; linarith)
    (fun x y h1 h2 h3 => by rw [fees_linInputs, fees_linInputs]; exact h2)
  exact ⟨h.1, h.2.1⟩
